import Mathlib

/-!
TUS demo client (`http_client_sync_ssl.cpp`).

A shallow embedding of the interactive TUS client: the three request builders
`Post`, `Head`, `Patch` and the menu loop of `main`.

Conventions of the embedding.

* A `std::string` is a `String`, one `Char` per `char`; `size()` is `String.length`.
* `std::cin` is the list of characters still to be read; `std::cout` is the list
  of items printed so far.
* The connected stream is an arbitrary `Transport`: `http::write` and
  `http::read` either succeed or throw.
* Every request handed to `http::write` is logged, with the response read for it
  (if any), in `World.log`.
-/

namespace TusSupport

/-! ## Constants -/

def kVersion : String := "1.0.0"
def kHost : String := "tusd.tusdemo.net"
def kPort : String := "443"
def kTarget : String := "/files/"

/-! ## HTTP messages (the part of Beast the program uses) -/

/-- The three `http::verb` values the program uses. -/
inductive Verb
  | post
  | head
  | patch
  deriving DecidableEq, Repr

/-- Header fields in insertion order, as `(name, value)` pairs. -/
abbrev Fields := List (String × String)

/-- Case-insensitive comparison of field names (`beast::iequals`, ASCII). -/
def iequals (a b : String) : Bool :=
  a.data.map Char.toLower == b.data.map Char.toLower

/-- Model of `basic_fields::set`: every field of that name is removed and the new
field is appended. -/
def Fields.set (fs : Fields) (name value : String) : Fields :=
  fs.filter (fun f => !iequals f.1 name) ++ [(name, value)]

/-- Model of a field lookup: the value of the first field of that name. -/
def Fields.find (fs : Fields) (name : String) : Option String :=
  (List.find? (fun f => iequals f.1 name) fs).map Prod.snd

/-- Model of `http::request<http::string_body>`. -/
structure Request where
  method : Verb
  target : String
  version : Nat
  fields : Fields
  body : String
  deriving DecidableEq, Repr

/-- Model of `http::response<http::dynamic_body>`. -/
structure Response where
  status : Nat
  fields : Fields
  body : String
  deriving DecidableEq, Repr

/-- Constructor `request(verb, target, version)`: no fields, empty body. -/
def Request.new (v : Verb) (target : String) (version : Nat) : Request :=
  { method := v, target := target, version := version, fields := [], body := "" }

/-- Model of `req.set(name, value)` with a string value. -/
def Request.set (r : Request) (name value : String) : Request :=
  { r with fields := r.fields.set name value }

/-- Model of `req.set(name, n)` with an integer value: Beast stores the decimal
rendering of the number. -/
def Request.setNat (r : Request) (name : String) (n : Nat) : Request :=
  r.set name (Nat.repr n)

/-- Value of a header of the request, if the request carries it. -/
def Request.header (r : Request) (name : String) : Option String :=
  r.fields.find name

/-! ## The world the program runs in -/

/-- The connected stream seen through `http::write` and `http::read`; `none`
means the call throws. The peer's state is `σ`. -/
structure Transport (σ : Type) where
  write : σ → Request → Option σ
  read : σ → Option (Response × σ)

/-- An item written to `std::cout`. -/
inductive Printed
  | text (s : String)
  | request (label : String) (req : Request)
  | response (label : String) (res : Response)
  deriving DecidableEq, Repr

/-- A request handed to `http::write`, with the response read for it. -/
structure Exchange where
  req : Request
  res : Option Response
  deriving DecidableEq, Repr

/-- Everything a call can read or change: the two standard streams, the log of
requests and the peer behind the stream. -/
structure World (σ : Type) where
  stdin : List Char
  stdout : List Printed
  log : List Exchange
  peer : σ

/-- How a call of `Post`, `Head` or `Patch` ends. `undefined` is the
out-of-range `location[24]`. -/
inductive Outcome
  | returned
  | threw
  | undefined
  deriving DecidableEq, Repr

/-- Writing an item to `std::cout`. -/
def World.print {σ : Type} (w : World σ) (p : Printed) : World σ :=
  { w with stdout := w.stdout ++ [p] }

/-! ## Formatted input -/

/-- The whitespace of the classic locale, which formatted extraction skips. -/
def isspace (c : Char) : Bool :=
  c == ' ' || (9 ≤ c.toNat && c.toNat ≤ 13)

/-- Model of `std::cin >> c` for a `char`: skip whitespace, take one character.
`none` when the input ends first. -/
def readChar (input : List Char) : Option (Char × List Char) :=
  match input.dropWhile isspace with
  | [] => none
  | c :: rest => some (c, rest)

/-- Model of `std::cin >> location` for a `std::string`: skip whitespace, take
the characters up to the next whitespace. The string is empty when the input
ends first. -/
def readToken (input : List Char) : String × List Char :=
  let s := input.dropWhile isspace
  (String.mk (s.takeWhile (fun c => !isspace c)), s.dropWhile (fun c => !isspace c))

/-- Model of `&location[24]` read as a C string: defined when index 24 is within
`[0, size()]`, and then the characters from index 24 up to the first NUL. -/
def targetOf (location : String) : Option String :=
  if 24 ≤ location.length then
    some (String.mk ((location.data.drop 24).takeWhile (fun c => c != Char.ofNat 0)))
  else
    none

/-! ## The request builders -/

/-- The tail shared by `Post`, `Head` and `Patch`: `http::write` the request,
`http::read` the response and print it. -/
def roundTrip {σ : Type} (net : Transport σ) (label : String) (w : World σ) (req : Request) :
    World σ × Outcome :=
  match net.write w.peer req with
  | none => ({ w with log := w.log ++ [⟨req, none⟩] }, Outcome.threw)
  | some p =>
    match net.read p with
    | none => ({ w with log := w.log ++ [⟨req, none⟩], peer := p }, Outcome.threw)
    | some (res, p') =>
      (({ w with log := w.log ++ [⟨req, some res⟩], peer := p' } : World σ).print
        (Printed.response label res), Outcome.returned)

/-- The request `Post` builds (source lines 47-51). `ua` is
`BOOST_BEAST_VERSION_STRING`. -/
def postRequest (ua : String) (length : Nat) : Request :=
  ((((Request.new Verb.post kTarget 11).set "User-Agent" ua).set "Host" kHost).set
    "Tus-Resumable" kVersion).setNat "Upload-Length" length

/-- `Post(stream, length)` (source lines 43-66). -/
def Post {σ : Type} (net : Transport σ) (ua : String) (w : World σ) (length : Nat) :
    World σ × Outcome :=
  let req := postRequest ua length
  let w := w.print (Printed.request "POST request:\n" req)
  roundTrip net "POST response:\n" w req

/-- The request `Head` builds (source lines 77-80). -/
def headRequest (ua : String) (target : String) : Request :=
  (((Request.new Verb.head target 11).set "User-Agent" ua).set "Host" kHost).set
    "Tus-Resumable" kVersion

/-- `Head(stream)` (source lines 68-95): the location is read from `std::cin`. -/
def Head {σ : Type} (net : Transport σ) (ua : String) (w : World σ) : World σ × Outcome :=
  let w := w.print (Printed.text "Copy and paste the location")
  let (location, rest) := readToken w.stdin
  let w := { w with stdin := rest }
  match targetOf location with
  | none => (w, Outcome.undefined)
  | some target =>
    let req := headRequest ua target
    let w := w.print (Printed.request "HEAD request:\n" req)
    roundTrip net "HEAD response:\n" w req

/-- The request `Patch` has built when it prints it (source lines 106-111). -/
def patchHeader (ua : String) (target : String) : Request :=
  (((((Request.new Verb.patch target 11).set "User-Agent" ua).set "Host" kHost).set
    "Tus-Resumable" kVersion).set "Content-Type" "application/offset+octet-stream").setNat
    "Upload-Offset" 0

/-- The request `Patch` sends (source lines 106-115): the body is assigned after
the print, then `Content-Length` is set when asked for. -/
def patchRequest (ua : String) (target : String) (content : String)
    (includeContentLength : Bool) : Request :=
  let req := { patchHeader ua target with body := content }
  if includeContentLength then req.setNat "Content-Length" content.length else req

/-- `Patch(stream, content, includeContentLength)` (source lines 97-129). -/
def Patch {σ : Type} (net : Transport σ) (ua : String) (w : World σ) (content : String)
    (includeContentLength : Bool) : World σ × Outcome :=
  let w := w.print (Printed.text "Copy and paste the location")
  let (location, rest) := readToken w.stdin
  let w := { w with stdin := rest }
  match targetOf location with
  | none => (w, Outcome.undefined)
  | some target =>
    let w := w.print (Printed.request "PATCH request:\n" (patchHeader ua target))
    roundTrip net "PATCH response:\n" w (patchRequest ua target content includeContentLength)

/-! ## The menu loop of `main` -/

/-- How one iteration of the loop ends. -/
inductive Step
  | running
  | quit
  | threw
  | undefined
  | inputEnd
  | fuelOut
  deriving DecidableEq, Repr

/-- The menu printed at the start of every iteration. -/
def menuText : String :=
  "Choose you action: \n1. POST\n2. HEAD\n3. PATCH with no Content-Length\n4. PATCH with Content-Length\nQ. Quit"

/-- After a call returns the loop goes on; an exception or the out-of-range
indexing ends the run. -/
def Step.ofOutcome : Outcome → Step
  | Outcome.returned => Step.running
  | Outcome.threw => Step.threw
  | Outcome.undefined => Step.undefined

/-- The `switch (c)` of the loop body (source lines 191-209). -/
def dispatch {σ : Type} (net : Transport σ) (ua : String) (content : String) (w : World σ)
    (c : Char) : World σ × Step :=
  if c = '1' then
    let r := Post net ua w content.length
    (r.1, Step.ofOutcome r.2)
  else if c = '2' then
    let r := Head net ua w
    (r.1, Step.ofOutcome r.2)
  else if c = '3' then
    let r := Patch net ua w content false
    (r.1, Step.ofOutcome r.2)
  else if c = '4' then
    let r := Patch net ua w content true
    (r.1, Step.ofOutcome r.2)
  else if c = 'q' ∨ c = 'Q' then
    (w, Step.quit)
  else
    (w, Step.running)

/-- One iteration of `while (run)` (source lines 180-209): print the menu, read
the choice, dispatch. When the input has ended the extraction fails and `c` has
no value; the model ends the run there with `inputEnd`. -/
def menuStep {σ : Type} (net : Transport σ) (ua : String) (content : String) (w : World σ) :
    World σ × Step :=
  let w := w.print (Printed.text menuText)
  match readChar w.stdin with
  | none => (w, Step.inputEnd)
  | some (c, rest) => dispatch net ua content { w with stdin := rest } c

/-- The loop `while (run)` of `main` (source lines 177-210), with a bound on the
number of iterations; `fuelOut` reports that the bound was reached. -/
def mainLoop {σ : Type} (net : Transport σ) (ua : String) (content : String) :
    Nat → World σ → World σ × Step
  | 0, w => (w, Step.fuelOut)
  | fuel + 1, w =>
    match menuStep net ua content w with
    | (w', Step.running) => mainLoop net ua content fuel w'
    | r => r

/-- The loop as `main` runs it on the loaded file `content`: every iteration
that goes on has consumed a character, so `stdin.length + 1` iterations are
never exhausted (`runMenu_ne_fuelOut`). -/
def runMenu {σ : Type} (net : Transport σ) (ua : String) (content : String) (w : World σ) :
    World σ × Step :=
  mainLoop net ua content (w.stdin.length + 1) w

/-- The exchanges logged between two worlds. -/
def newExchanges {σ τ : Type} (before : World σ) (after : World τ) : List Exchange :=
  after.log.drop before.log.length

/-! ## Upload offset and a TUS server -/

/-- A success status (2xx). -/
def Response.success (res : Response) : Bool :=
  decide (200 ≤ res.status) && decide (res.status < 300)

/-- A PATCH the server accepted: it was answered with a success status. -/
def Exchange.accepted (e : Exchange) : Bool :=
  e.req.method == Verb.patch &&
    (match e.res with
     | some res => res.success
     | none => false)

/-- The session quantity `uploadOffset` of the specification, which the program
does not keep: 0 at the start, advanced by the body length on each PATCH the
server accepts. It is also the total number of body bytes in accepted PATCH
requests. -/
def uploadOffset (log : List Exchange) : Nat :=
  ((log.filter Exchange.accepted).map (fun e => e.req.body.length)).sum

/-- State of a server holding one upload: the upload's offset and the reply to
the request just received. -/
structure Tusd where
  offset : Nat
  reply : Option Response
  deriving DecidableEq, Repr

/-- The server receives a request. A PATCH is accepted exactly when its declared
`Upload-Offset` is the upload's current offset, which then advances by the body
length; POST and HEAD leave the offset as it is. -/
def Tusd.handle (s : Tusd) (req : Request) : Tusd :=
  match req.method with
  | Verb.post =>
    { s with reply := some ⟨201, [("Location", "https://tusd.tusdemo.net/files/upload")], ""⟩ }
  | Verb.head =>
    { s with reply := some ⟨200, [("Upload-Offset", Nat.repr s.offset)], ""⟩ }
  | Verb.patch =>
    if req.header "Upload-Offset" = some (Nat.repr s.offset) then
      { offset := s.offset + req.body.length,
        reply := some ⟨204, [("Upload-Offset", Nat.repr (s.offset + req.body.length))], ""⟩ }
    else
      { s with reply := some ⟨409, [], ""⟩ }

/-- The TUS server as a transport: `http::write` delivers the request,
`http::read` returns the pending reply. -/
def tusd : Transport Tusd where
  write := fun s req => some (s.handle req)
  read := fun s => s.reply.map (fun res => (res, { s with reply := none }))

/-- The server when the upload has just been started. -/
def Tusd.start : Tusd := { offset := 0, reply := none }

/-- A peer that answers every request with status 500 and no header. -/
def brokenServer : Transport Unit where
  write := fun _ _ => some ()
  read := fun _ => some (⟨500, [], ""⟩, ())

/-- The world at the start of the loop: nothing printed, nothing sent. -/
def World.start {σ : Type} (input : String) (peer : σ) : World σ :=
  { stdin := input.data, stdout := [], log := [], peer := peer }

/-- The requests the program can build for the payload `content`. -/
def Built (ua content : String) (req : Request) : Prop :=
  req = postRequest ua content.length ∨ (∃ t, req = headRequest ua t) ∨
    ∃ t icl, req = patchRequest ua t content icl

/-! # Properties -/

/-! ## Decimal rendering -/

/-- Only 0 is rendered as the string 0. -/
theorem repr_eq_zero_iff (n : Nat) : Nat.repr n = "0" ↔ n = 0 := by
  constructor
  · intro h
    by_contra hn
    have hd : Nat.toDigits 10 n = [Char.ofNat 48] := by
      have := congrArg String.data h
      simpa [Nat.repr, List.asString] using this
    have hl : (Nat.toDigits 10 n).length = 1 := by rw [hd]; rfl
    by_cases h10 : n < 10
    · interval_cases n <;> simp_all [Nat.toDigits, Nat.toDigitsCore, Nat.digitChar]
    · obtain ⟨m, rfl⟩ : ∃ m, n = m + 1 := ⟨n - 1, by omega⟩
      have hq : (m + 1) / 10 ≠ 0 := by omega
      simp only [Nat.toDigits, Nat.toDigitsCore, hq, if_false] at hl
      split at hl
      · simp at hl
      · rw [Nat.toDigitsCore_lens_eq, Nat.toDigitsCore_lens_eq] at hl
        omega
  · rintro rfl; rfl

/-! ## Header lemmas -/

theorem postRequest_eq (ua : String) (n : Nat) :
    postRequest ua n =
      { method := Verb.post, target := "/files/", version := 11,
        fields := [("User-Agent", ua), ("Host", "tusd.tusdemo.net"), ("Tus-Resumable", "1.0.0"),
          ("Upload-Length", Nat.repr n)],
        body := "" } := by
  simp [postRequest, Request.set, Request.setNat, Request.new, Fields.set, iequals, kHost,
    kVersion, kTarget]

theorem headRequest_eq (ua target : String) :
    headRequest ua target =
      { method := Verb.head, target := target, version := 11,
        fields := [("User-Agent", ua), ("Host", "tusd.tusdemo.net"), ("Tus-Resumable", "1.0.0")],
        body := "" } := by
  simp [headRequest, Request.set, Request.new, Fields.set, iequals, kHost, kVersion]

theorem patchHeader_eq (ua target : String) :
    patchHeader ua target =
      { method := Verb.patch, target := target, version := 11,
        fields := [("User-Agent", ua), ("Host", "tusd.tusdemo.net"), ("Tus-Resumable", "1.0.0"),
          ("Content-Type", "application/offset+octet-stream"), ("Upload-Offset", "0")],
        body := "" } := by
  simp [patchHeader, Request.set, Request.setNat, Request.new, Fields.set, iequals, kHost,
    kVersion]
  rfl

theorem patchRequest_eq (ua target content : String) (icl : Bool) :
    patchRequest ua target content icl =
      { method := Verb.patch, target := target, version := 11,
        fields := [("User-Agent", ua), ("Host", "tusd.tusdemo.net"), ("Tus-Resumable", "1.0.0"),
          ("Content-Type", "application/offset+octet-stream"), ("Upload-Offset", "0")] ++
          (if icl then [("Content-Length", Nat.repr content.length)] else []),
        body := content } := by
  cases icl <;>
    simp [patchRequest, patchHeader_eq, Request.set, Request.setNat, Fields.set, iequals]

/-! ## Effects of one call -/

theorem print_log {σ : Type} (w : World σ) (p : Printed) : (w.print p).log = w.log := rfl

theorem print_stdin {σ : Type} (w : World σ) (p : Printed) : (w.print p).stdin = w.stdin := rfl

theorem print_peer {σ : Type} (w : World σ) (p : Printed) : (w.print p).peer = w.peer := rfl

theorem roundTrip_log {σ : Type} (net : Transport σ) (label : String) (w : World σ)
    (req : Request) : ∃ r, (roundTrip net label w req).1.log = w.log ++ [⟨req, r⟩] := by
  unfold roundTrip
  split
  · exact ⟨none, rfl⟩
  · split
    · exact ⟨none, rfl⟩
    · exact ⟨_, rfl⟩

theorem roundTrip_stdin {σ : Type} (net : Transport σ) (label : String) (w : World σ)
    (req : Request) : (roundTrip net label w req).1.stdin = w.stdin := by
  unfold roundTrip
  split
  · rfl
  · split <;> rfl

theorem roundTrip_returned {σ : Type} (net : Transport σ) (label : String) (w : World σ)
    (req : Request) :
    (roundTrip net label w req).2 = Outcome.returned ↔
      ∃ p res p', net.write w.peer req = some p ∧ net.read p = some (res, p') := by
  unfold roundTrip
  split
  · rename_i h; simp [h]
  · rename_i p h
    split
    · rename_i h'; simp [h, h']
    · rename_i res p' h'; simp [h, h']

theorem roundTrip_threw {σ : Type} (net : Transport σ) (label : String) (w : World σ)
    (req : Request) :
    (roundTrip net label w req).2 = Outcome.returned ∨
      (roundTrip net label w req).2 = Outcome.threw := by
  unfold roundTrip
  split
  · exact Or.inr rfl
  · split
    · exact Or.inr rfl
    · exact Or.inl rfl

theorem Post_log {σ : Type} (net : Transport σ) (ua : String) (w : World σ) (n : Nat) :
    ∃ r, (Post net ua w n).1.log = w.log ++ [⟨postRequest ua n, r⟩] := by
  obtain ⟨r, hr⟩ := roundTrip_log net "POST response:\n"
    (w.print (Printed.request "POST request:\n" (postRequest ua n))) (postRequest ua n)
  exact ⟨r, hr⟩

theorem Post_stdin {σ : Type} (net : Transport σ) (ua : String) (w : World σ) (n : Nat) :
    (Post net ua w n).1.stdin = w.stdin := by
  simp [Post, roundTrip_stdin, print_stdin]

theorem Head_none {σ : Type} (net : Transport σ) (ua : String) (w : World σ)
    (h : targetOf (readToken w.stdin).1 = none) :
    (Head net ua w).1.log = w.log ∧ (Head net ua w).2 = Outcome.undefined := by
  simp [Head, print_stdin, h, print_log]

theorem Head_some {σ : Type} (net : Transport σ) (ua : String) (w : World σ) (t : String)
    (h : targetOf (readToken w.stdin).1 = some t) :
    (∃ r, (Head net ua w).1.log = w.log ++ [⟨headRequest ua t, r⟩]) ∧
      (Head net ua w).2 ≠ Outcome.undefined := by
  simp only [Head, print_stdin, h]
  constructor
  · obtain ⟨r, hr⟩ := roundTrip_log net "HEAD response:\n"
      (World.print { w.print (Printed.text "Copy and paste the location") with
        stdin := (readToken w.stdin).2 } (Printed.request "HEAD request:\n" (headRequest ua t)))
      (headRequest ua t)
    exact ⟨r, hr⟩
  · rcases roundTrip_threw net "HEAD response:\n"
      (World.print { w.print (Printed.text "Copy and paste the location") with
        stdin := (readToken w.stdin).2 } (Printed.request "HEAD request:\n" (headRequest ua t)))
      (headRequest ua t) with h1 | h1 <;> simp [h1]

theorem Head_stdin {σ : Type} (net : Transport σ) (ua : String) (w : World σ) :
    (Head net ua w).1.stdin = (readToken w.stdin).2 := by
  simp only [Head, print_stdin]
  split
  · rfl
  · simp [roundTrip_stdin, print_stdin]

theorem Patch_none {σ : Type} (net : Transport σ) (ua : String) (w : World σ)
    (content : String) (icl : Bool) (h : targetOf (readToken w.stdin).1 = none) :
    (Patch net ua w content icl).1.log = w.log ∧
      (Patch net ua w content icl).2 = Outcome.undefined := by
  simp [Patch, print_stdin, h, print_log]

theorem Patch_some {σ : Type} (net : Transport σ) (ua : String) (w : World σ)
    (content : String) (icl : Bool) (t : String)
    (h : targetOf (readToken w.stdin).1 = some t) :
    (∃ r, (Patch net ua w content icl).1.log =
        w.log ++ [⟨patchRequest ua t content icl, r⟩]) ∧
      (Patch net ua w content icl).2 ≠ Outcome.undefined := by
  simp only [Patch, print_stdin, h]
  constructor
  · obtain ⟨r, hr⟩ := roundTrip_log net "PATCH response:\n"
      (World.print { w.print (Printed.text "Copy and paste the location") with
        stdin := (readToken w.stdin).2 }
        (Printed.request "PATCH request:\n" (patchHeader ua t)))
      (patchRequest ua t content icl)
    exact ⟨r, hr⟩
  · rcases roundTrip_threw net "PATCH response:\n"
      (World.print { w.print (Printed.text "Copy and paste the location") with
        stdin := (readToken w.stdin).2 }
        (Printed.request "PATCH request:\n" (patchHeader ua t)))
      (patchRequest ua t content icl) with h1 | h1 <;> simp [h1]

theorem Patch_stdin {σ : Type} (net : Transport σ) (ua : String) (w : World σ)
    (content : String) (icl : Bool) :
    (Patch net ua w content icl).1.stdin = (readToken w.stdin).2 := by
  simp only [Patch, print_stdin]
  split
  · rfl
  · simp [roundTrip_stdin, print_stdin]

theorem newExchanges_of_log {σ τ : Type} (w : World σ) (w' : World τ) (l : List Exchange)
    (h : w'.log = w.log ++ l) : newExchanges w w' = l := by
  simp [newExchanges, h]

theorem Post_new {σ : Type} (net : Transport σ) (ua : String) (w : World σ) (n : Nat) :
    ∃ r, newExchanges w (Post net ua w n).1 = [⟨postRequest ua n, r⟩] := by
  obtain ⟨r, hr⟩ := Post_log net ua w n
  exact ⟨r, newExchanges_of_log _ _ _ hr⟩

theorem Head_new_none {σ : Type} (net : Transport σ) (ua : String) (w : World σ)
    (h : targetOf (readToken w.stdin).1 = none) : newExchanges w (Head net ua w).1 = [] :=
  newExchanges_of_log _ _ _ (by simp [(Head_none net ua w h).1])

theorem Head_new_some {σ : Type} (net : Transport σ) (ua : String) (w : World σ) (t : String)
    (h : targetOf (readToken w.stdin).1 = some t) :
    ∃ r, newExchanges w (Head net ua w).1 = [⟨headRequest ua t, r⟩] := by
  obtain ⟨r, hr⟩ := (Head_some net ua w t h).1
  exact ⟨r, newExchanges_of_log _ _ _ hr⟩

theorem Patch_new_none {σ : Type} (net : Transport σ) (ua : String) (w : World σ)
    (content : String) (icl : Bool) (h : targetOf (readToken w.stdin).1 = none) :
    newExchanges w (Patch net ua w content icl).1 = [] :=
  newExchanges_of_log _ _ _ (by simp [(Patch_none net ua w content icl h).1])

theorem Patch_new_some {σ : Type} (net : Transport σ) (ua : String) (w : World σ)
    (content : String) (icl : Bool) (t : String)
    (h : targetOf (readToken w.stdin).1 = some t) :
    ∃ r, newExchanges w (Patch net ua w content icl).1 =
      [⟨patchRequest ua t content icl, r⟩] := by
  obtain ⟨r, hr⟩ := (Patch_some net ua w content icl t h).1
  exact ⟨r, newExchanges_of_log _ _ _ hr⟩

theorem Post_mem {σ : Type} (net : Transport σ) (ua : String) (w : World σ) (n : Nat)
    (e : Exchange) (h : e ∈ newExchanges w (Post net ua w n).1) : e.req = postRequest ua n := by
  obtain ⟨r, hr⟩ := Post_new net ua w n
  rw [hr] at h
  simp at h
  simp [h]

theorem Head_mem {σ : Type} (net : Transport σ) (ua : String) (w : World σ)
    (e : Exchange) (h : e ∈ newExchanges w (Head net ua w).1) :
    ∃ t, targetOf (readToken w.stdin).1 = some t ∧ e.req = headRequest ua t := by
  cases ht : targetOf (readToken w.stdin).1 with
  | none => rw [Head_new_none net ua w ht] at h; simp at h
  | some t =>
    obtain ⟨r, hr⟩ := Head_new_some net ua w t ht
    rw [hr] at h
    simp at h
    exact ⟨t, rfl, by simp [h]⟩

theorem Patch_mem {σ : Type} (net : Transport σ) (ua : String) (w : World σ)
    (content : String) (icl : Bool) (e : Exchange)
    (h : e ∈ newExchanges w (Patch net ua w content icl).1) :
    ∃ t, targetOf (readToken w.stdin).1 = some t ∧ e.req = patchRequest ua t content icl := by
  cases ht : targetOf (readToken w.stdin).1 with
  | none => rw [Patch_new_none net ua w content icl ht] at h; simp at h
  | some t =>
    obtain ⟨r, hr⟩ := Patch_new_some net ua w content icl t ht
    rw [hr] at h
    simp at h
    exact ⟨t, rfl, by simp [h]⟩

/-! ## The indexing `&location[24]` -/

theorem targetOf_eq_none (l : String) : targetOf l = none ↔ l.length < 24 := by
  unfold targetOf
  split <;> simp <;> omega

theorem targetOf_isSome (l : String) : (targetOf l).isSome ↔ 24 ≤ l.length := by
  unfold targetOf
  split <;> simp <;> omega

theorem targetOf_append (a p : String) (ha : a.length = 24)
    (hp : ∀ c ∈ p.data, c ≠ Char.ofNat 0) : targetOf (a ++ p) = some p := by
  have hlen : 24 ≤ (a ++ p).length := by simp [String.length_append, ha]
  have hdrop : (a ++ p).data.drop 24 = p.data := by
    rw [String.data_append]
    exact List.drop_left' ha
  have htake : p.data.takeWhile (fun c => c != Char.ofNat 0) = p.data := by
    rw [List.takeWhile_eq_self_iff]
    intro c hc
    simpa using hp c hc
  unfold targetOf
  rw [if_pos hlen, hdrop, htake]

theorem Head_undefined_iff {σ : Type} (net : Transport σ) (ua : String) (w : World σ) :
    (Head net ua w).2 = Outcome.undefined ↔ (readToken w.stdin).1.length < 24 := by
  rw [← targetOf_eq_none]
  cases ht : targetOf (readToken w.stdin).1 with
  | none => simp [(Head_none net ua w ht).2]
  | some t => simp [(Head_some net ua w t ht).2]

theorem Patch_undefined_iff {σ : Type} (net : Transport σ) (ua : String) (w : World σ)
    (content : String) (icl : Bool) :
    (Patch net ua w content icl).2 = Outcome.undefined ↔ (readToken w.stdin).1.length < 24 := by
  rw [← targetOf_eq_none]
  cases ht : targetOf (readToken w.stdin).1 with
  | none => simp [(Patch_none net ua w content icl ht).2]
  | some t => simp [(Patch_some net ua w content icl t ht).2]

/-! ## Claims about single requests -/

/-- C1: every request that `Post`, `Head` or `Patch` hands to the stream carries
the header `Tus-Resumable` with the value of `kVersion`, the string 1.0.0,
whatever the payload, the pasted location and `includeContentLength` are. So
does the request `Patch` prints before it assigns the body. -/
theorem tus_resumable_on_every_request {σ : Type} (net : Transport σ) (ua : String)
    (w : World σ) (n : Nat) (content : String) (includeContentLength : Bool) (e : Exchange)
    (h : e ∈ newExchanges w (Post net ua w n).1 ∨ e ∈ newExchanges w (Head net ua w).1 ∨
      e ∈ newExchanges w (Patch net ua w content includeContentLength).1) :
    e.req.header "Tus-Resumable" = some kVersion ∧ kVersion = "1.0.0" ∧
      (∀ t, (patchHeader ua t).header "Tus-Resumable" = some kVersion) := by
  refine ⟨?_, rfl, fun t => by rw [patchHeader_eq]; rfl⟩
  rcases h with h | h | h
  · rw [Post_mem net ua w n e h, postRequest_eq]; rfl
  · obtain ⟨t, -, ht⟩ := Head_mem net ua w e h
    rw [ht, headRequest_eq]; rfl
  · obtain ⟨t, -, ht⟩ := Patch_mem net ua w content includeContentLength e h
    rw [ht, patchRequest_eq]; rfl

theorem tus_resumable_on_every_request_witness :
    (Exchange.mk (patchRequest "Boost.Beast/266" "/files/abc" "abc" true)
        (some ⟨500, [], ""⟩) ∈
      newExchanges (World.start "https://tusd.tusdemo.net/files/abc" ())
        (Patch brokenServer "Boost.Beast/266"
          (World.start "https://tusd.tusdemo.net/files/abc" ()) "abc" true).1) ∧
      (patchRequest "Boost.Beast/266" "/files/abc" "abc" true).header "Tus-Resumable" =
        some "1.0.0" :=
  ⟨by decide,
    (tus_resumable_on_every_request brokenServer "Boost.Beast/266"
      (World.start "https://tusd.tusdemo.net/files/abc" ()) 3 "abc" true
      (Exchange.mk (patchRequest "Boost.Beast/266" "/files/abc" "abc" true)
        (some ⟨500, [], ""⟩))
      (Or.inr (Or.inr (by decide)))).1⟩

/-- C3: the request `Patch` sends carries a `Content-Length` header exactly when
`includeContentLength` is true, and the value of that header is the decimal
rendering of `content.size()`, which is the length of the body sent. -/
theorem patch_content_length {σ : Type} (net : Transport σ) (ua : String) (w : World σ)
    (content : String) (includeContentLength : Bool) (e : Exchange)
    (h : e ∈ newExchanges w (Patch net ua w content includeContentLength).1) :
    ((e.req.header "Content-Length").isSome = true ↔ includeContentLength = true) ∧
      (∀ v, e.req.header "Content-Length" = some v →
        v = Nat.repr content.length ∧ v = Nat.repr e.req.body.length) := by
  obtain ⟨t, -, ht⟩ := Patch_mem net ua w content includeContentLength e h
  rw [ht, patchRequest_eq]
  cases includeContentLength <;>
    simp [Request.header, Fields.find, iequals, List.find?]

theorem patch_content_length_witness :
    (Exchange.mk (patchRequest "Boost.Beast/266" "/files/abc" "abc" true)
        (some ⟨500, [], ""⟩) ∈
      newExchanges (World.start "https://tusd.tusdemo.net/files/abc" ())
        (Patch brokenServer "Boost.Beast/266"
          (World.start "https://tusd.tusdemo.net/files/abc" ()) "abc" true).1) ∧
      (patchRequest "Boost.Beast/266" "/files/abc" "abc" true).header "Content-Length" =
        some "3" ∧
      "3" = Nat.repr "abc".length :=
  ⟨by decide, by decide,
    ((patch_content_length brokenServer "Boost.Beast/266"
      (World.start "https://tusd.tusdemo.net/files/abc" ()) "abc" true
      (Exchange.mk (patchRequest "Boost.Beast/266" "/files/abc" "abc" true)
        (some ⟨500, [], ""⟩))
      (by decide)).2 "3" (by decide)).1⟩

/-- C7: the request `Patch` sends is a PATCH with the header `Content-Type` equal
to application/offset+octet-stream, with an `Upload-Offset` header, and with the
whole content string as its body, for both values of `includeContentLength`.
When the pasted location has at least 24 characters there is exactly one such
request. -/
theorem patch_request_shape {σ : Type} (net : Transport σ) (ua : String) (w : World σ)
    (content : String) (includeContentLength : Bool) (e : Exchange)
    (h : e ∈ newExchanges w (Patch net ua w content includeContentLength).1) :
    e.req.method = Verb.patch ∧
      e.req.header "Content-Type" = some "application/offset+octet-stream" ∧
      (e.req.header "Upload-Offset").isSome = true ∧
      e.req.body = content ∧
      newExchanges w (Patch net ua w content includeContentLength).1 = [e] := by
  obtain ⟨t, htar, ht⟩ := Patch_mem net ua w content includeContentLength e h
  obtain ⟨r, hr⟩ := Patch_new_some net ua w content includeContentLength t htar
  have he : e = ⟨patchRequest ua t content includeContentLength, r⟩ := by
    rw [hr] at h
    simpa using h
  refine ⟨?_, ?_, ?_, ?_, ?_⟩
  · rw [ht, patchRequest_eq]
  · rw [ht, patchRequest_eq]; rfl
  · rw [ht, patchRequest_eq]; rfl
  · rw [ht, patchRequest_eq]
  · rw [hr, he]

theorem patch_request_shape_witness :
    (Exchange.mk (patchRequest "Boost.Beast/266" "/files/abc" "abc" false)
        (some ⟨500, [], ""⟩) ∈
      newExchanges (World.start "https://tusd.tusdemo.net/files/abc" ())
        (Patch brokenServer "Boost.Beast/266"
          (World.start "https://tusd.tusdemo.net/files/abc" ()) "abc" false).1) ∧
      (patchRequest "Boost.Beast/266" "/files/abc" "abc" false).body = "abc" :=
  ⟨by decide,
    (patch_request_shape brokenServer "Boost.Beast/266"
      (World.start "https://tusd.tusdemo.net/files/abc" ()) "abc" false
      (Exchange.mk (patchRequest "Boost.Beast/266" "/files/abc" "abc" false)
        (some ⟨500, [], ""⟩))
      (by decide)).2.2.2.1⟩

/-- C9: every request that `Post`, `Head` or `Patch` hands to the stream has the
header `Host` equal to `kHost`, the string tusd.tusdemo.net. Hence the requests
of two calls, whatever the pasted locations (the worlds `w1` and `w2` are
arbitrary), carry identical `Host` headers. -/
theorem host_is_fixed {σ : Type} (net : Transport σ) (ua : String) (w1 w2 : World σ)
    (n : Nat) (content : String) (includeContentLength : Bool) (e1 e2 : Exchange)
    (h1 : e1 ∈ newExchanges w1 (Post net ua w1 n).1 ∨ e1 ∈ newExchanges w1 (Head net ua w1).1 ∨
      e1 ∈ newExchanges w1 (Patch net ua w1 content includeContentLength).1)
    (h2 : e2 ∈ newExchanges w2 (Post net ua w2 n).1 ∨ e2 ∈ newExchanges w2 (Head net ua w2).1 ∨
      e2 ∈ newExchanges w2 (Patch net ua w2 content includeContentLength).1) :
    e1.req.header "Host" = some kHost ∧ kHost = "tusd.tusdemo.net" ∧
      e1.req.header "Host" = e2.req.header "Host" := by
  have key : ∀ (w : World σ) (e : Exchange),
      (e ∈ newExchanges w (Post net ua w n).1 ∨ e ∈ newExchanges w (Head net ua w).1 ∨
        e ∈ newExchanges w (Patch net ua w content includeContentLength).1) →
      e.req.header "Host" = some kHost := by
    intro w e h
    rcases h with h | h | h
    · rw [Post_mem net ua w n e h, postRequest_eq]; rfl
    · obtain ⟨t, -, ht⟩ := Head_mem net ua w e h
      rw [ht, headRequest_eq]; rfl
    · obtain ⟨t, -, ht⟩ := Patch_mem net ua w content includeContentLength e h
      rw [ht, patchRequest_eq]; rfl
  exact ⟨key w1 e1 h1, rfl, (key w1 e1 h1).trans (key w2 e2 h2).symm⟩

theorem host_is_fixed_witness :
    (Exchange.mk (headRequest "Boost.Beast/266" "/files/abc") (some ⟨500, [], ""⟩) ∈
      newExchanges (World.start "https://tusd.tusdemo.net/files/abc" ())
        (Head brokenServer "Boost.Beast/266"
          (World.start "https://tusd.tusdemo.net/files/abc" ())).1) ∧
      (Exchange.mk (headRequest "Boost.Beast/266" "/secret") (some ⟨500, [], ""⟩) ∈
        newExchanges (World.start "https://evil.example.org/secret" ())
          (Head brokenServer "Boost.Beast/266"
            (World.start "https://evil.example.org/secret" ())).1) ∧
      (headRequest "Boost.Beast/266" "/files/abc").header "Host" =
        (headRequest "Boost.Beast/266" "/secret").header "Host" :=
  ⟨by decide, by decide,
    (host_is_fixed brokenServer "Boost.Beast/266"
      (World.start "https://tusd.tusdemo.net/files/abc" ())
      (World.start "https://evil.example.org/secret" ()) 3 "abc" true
      (Exchange.mk (headRequest "Boost.Beast/266" "/files/abc") (some ⟨500, [], ""⟩))
      (Exchange.mk (headRequest "Boost.Beast/266" "/secret") (some ⟨500, [], ""⟩))
      (Or.inr (Or.inl (by decide))) (Or.inr (Or.inl (by decide)))).2.2⟩

/-- C10: the request target of `Head` and `Patch` is the C string at
`&location[24]`. Index 24 is in bounds exactly when the pasted location has at
least 24 characters, and a shorter location ends the call in the undefined
branch. For a path `p` without NUL, any 24 characters followed by `p` give the
target `p`; in particular the location https://tusd.tusdemo.net
followed by `p` (scheme and `kHost`, 24 characters) gives the target `p`, and
the 24-character location alone gives the empty target. -/
theorem target_is_location_from_index_24 {σ : Type} (net : Transport σ) (ua : String)
    (w : World σ) (content : String) (includeContentLength : Bool) (p : String)
    (hp : ∀ c ∈ p.data, c ≠ Char.ofNat 0) :
    ((targetOf (readToken w.stdin).1).isSome = true ↔ 24 ≤ (readToken w.stdin).1.length) ∧
      ((Head net ua w).2 = Outcome.undefined ↔ (readToken w.stdin).1.length < 24) ∧
      ((Patch net ua w content includeContentLength).2 = Outcome.undefined ↔
        (readToken w.stdin).1.length < 24) ∧
      (∀ e ∈ newExchanges w (Head net ua w).1,
        targetOf (readToken w.stdin).1 = some e.req.target) ∧
      (∀ e ∈ newExchanges w (Patch net ua w content includeContentLength).1,
        targetOf (readToken w.stdin).1 = some e.req.target) ∧
      (∀ a : String, a.length = 24 → targetOf (a ++ p) = some p) ∧
      ("https://" ++ kHost).length = 24 ∧
      targetOf ("https://" ++ kHost ++ p) = some p ∧
      targetOf ("https://" ++ kHost) = some "" := by
  refine ⟨targetOf_isSome _, Head_undefined_iff net ua w,
    Patch_undefined_iff net ua w content includeContentLength, ?_, ?_,
    fun a ha => targetOf_append a p ha hp, by decide,
    targetOf_append _ p (by decide) hp, by decide⟩
  · intro e he
    obtain ⟨t, htar, ht⟩ := Head_mem net ua w e he
    rw [htar, ht, headRequest_eq]
  · intro e he
    obtain ⟨t, htar, ht⟩ := Patch_mem net ua w content includeContentLength e he
    rw [htar, ht, patchRequest_eq]

theorem target_is_location_from_index_24_witness :
    (∀ c ∈ "/files/abc".data, c ≠ Char.ofNat 0) ∧
      targetOf ("https://" ++ kHost ++ "/files/abc") = some "/files/abc" :=
  ⟨by decide,
    (target_is_location_from_index_24 brokenServer "Boost.Beast/266"
      (World.start "https://tusd.tusdemo.net/files/abc" ()) "abc" true "/files/abc"
      (by decide)).2.2.2.2.2.2.2.1⟩

theorem readChar_length (s : List Char) (c : Char) (rest : List Char)
    (h : readChar s = some (c, rest)) : rest.length < s.length := by
  unfold readChar at h
  have hle := (List.dropWhile_suffix isspace (l := s)).length_le
  split at h
  · simp at h
  · rename_i c' rest' heq
    simp only [Option.some.injEq, Prod.mk.injEq] at h
    rw [heq] at hle
    simp only [List.length_cons] at hle
    rw [← h.2]
    omega

theorem readToken_length (s : List Char) : (readToken s).2.length ≤ s.length := by
  unfold readToken
  exact ((List.dropWhile_suffix _).length_le).trans (List.dropWhile_suffix _).length_le

theorem dispatch_stdin {σ : Type} (net : Transport σ) (ua content : String) (w : World σ)
    (c : Char) : (dispatch net ua content w c).1.stdin.length ≤ w.stdin.length := by
  unfold dispatch
  split_ifs
  · simp [Post_stdin]
  · simp [Head_stdin, readToken_length]
  · simp [Patch_stdin, readToken_length]
  · simp [Patch_stdin, readToken_length]
  · simp
  · simp

theorem menuStep_stdin {σ : Type} (net : Transport σ) (ua content : String) (w : World σ)
    (h : (menuStep net ua content w).2 = Step.running) :
    (menuStep net ua content w).1.stdin.length < w.stdin.length := by
  unfold menuStep at h ⊢
  simp only [print_stdin] at h ⊢
  cases hr : readChar w.stdin with
  | none => simp [hr] at h
  | some x =>
    obtain ⟨c, rest⟩ := x
    simp only [hr]
    have h1 := readChar_length w.stdin c rest hr
    have h2 := dispatch_stdin net ua content
      { w.print (Printed.text menuText) with stdin := rest } c
    simp only at h2
    omega

theorem ofOutcome_ne_fuelOut (o : Outcome) : Step.ofOutcome o ≠ Step.fuelOut := by
  cases o <;> simp [Step.ofOutcome]

theorem dispatch_ne_fuelOut {σ : Type} (net : Transport σ) (ua content : String) (w : World σ)
    (c : Char) : (dispatch net ua content w c).2 ≠ Step.fuelOut := by
  unfold dispatch
  split_ifs <;> simp [ofOutcome_ne_fuelOut]

theorem menuStep_ne_fuelOut {σ : Type} (net : Transport σ) (ua content : String)
    (w : World σ) : (menuStep net ua content w).2 ≠ Step.fuelOut := by
  unfold menuStep
  simp only
  split
  · simp
  · exact dispatch_ne_fuelOut _ _ _ _ _

theorem mainLoop_succ {σ : Type} (net : Transport σ) (ua content : String) (fuel : Nat)
    (w : World σ) :
    mainLoop net ua content (fuel + 1) w =
      if (menuStep net ua content w).2 = Step.running then
        mainLoop net ua content fuel (menuStep net ua content w).1
      else menuStep net ua content w := by
  rw [mainLoop]
  generalize menuStep net ua content w = r
  obtain ⟨w', st⟩ := r
  cases st <;> simp

theorem mainLoop_fuel {σ : Type} (net : Transport σ) (ua content : String) (fuel : Nat) :
    ∀ w : World σ, w.stdin.length < fuel →
      (mainLoop net ua content fuel w).2 ≠ Step.fuelOut := by
  induction fuel with
  | zero => intro w h; omega
  | succ k ih =>
    intro w h
    rw [mainLoop_succ]
    split_ifs with hs
    · have := menuStep_stdin net ua content w hs
      exact ih _ (by omega)
    · exact menuStep_ne_fuelOut net ua content w

theorem runMenu_ne_fuelOut {σ : Type} (net : Transport σ) (ua content : String)
    (w : World σ) : (runMenu net ua content w).2 ≠ Step.fuelOut :=
  mainLoop_fuel net ua content _ w (Nat.lt_succ_self _)

/-! ## Invariants of the loop -/

theorem Post_invariant {σ : Type} (net : Transport σ) (ua content : String)
    (P : List Exchange → σ → Prop)
    (hP : ∀ (w : World σ) (label : String) (req : Request), Built ua content req →
      P w.log w.peer → P (roundTrip net label w req).1.log (roundTrip net label w req).1.peer)
    (w : World σ) (h : P w.log w.peer) :
    P (Post net ua w content.length).1.log (Post net ua w content.length).1.peer :=
  hP (w.print (Printed.request "POST request:\n" (postRequest ua content.length)))
    "POST response:\n" _ (Or.inl rfl) h

theorem Head_invariant {σ : Type} (net : Transport σ) (ua content : String)
    (P : List Exchange → σ → Prop)
    (hP : ∀ (w : World σ) (label : String) (req : Request), Built ua content req →
      P w.log w.peer → P (roundTrip net label w req).1.log (roundTrip net label w req).1.peer)
    (w : World σ) (h : P w.log w.peer) :
    P (Head net ua w).1.log (Head net ua w).1.peer := by
  simp only [Head, print_stdin]
  split
  · exact h
  · rename_i t _
    exact hP (World.print { w.print (Printed.text "Copy and paste the location") with
        stdin := (readToken w.stdin).2 } (Printed.request "HEAD request:\n" (headRequest ua t)))
      "HEAD response:\n" _ (Or.inr (Or.inl ⟨t, rfl⟩)) h

theorem Patch_invariant {σ : Type} (net : Transport σ) (ua content : String)
    (P : List Exchange → σ → Prop)
    (hP : ∀ (w : World σ) (label : String) (req : Request), Built ua content req →
      P w.log w.peer → P (roundTrip net label w req).1.log (roundTrip net label w req).1.peer)
    (w : World σ) (icl : Bool) (h : P w.log w.peer) :
    P (Patch net ua w content icl).1.log (Patch net ua w content icl).1.peer := by
  simp only [Patch, print_stdin]
  split
  · exact h
  · rename_i t _
    exact hP (World.print { w.print (Printed.text "Copy and paste the location") with
        stdin := (readToken w.stdin).2 } (Printed.request "PATCH request:\n" (patchHeader ua t)))
      "PATCH response:\n" _ (Or.inr (Or.inr ⟨t, icl, rfl⟩)) h

theorem dispatch_invariant {σ : Type} (net : Transport σ) (ua content : String)
    (P : List Exchange → σ → Prop)
    (hP : ∀ (w : World σ) (label : String) (req : Request), Built ua content req →
      P w.log w.peer → P (roundTrip net label w req).1.log (roundTrip net label w req).1.peer)
    (w : World σ) (c : Char) (h : P w.log w.peer) :
    P (dispatch net ua content w c).1.log (dispatch net ua content w c).1.peer := by
  unfold dispatch
  split_ifs
  · exact Post_invariant net ua content P hP w h
  · exact Head_invariant net ua content P hP w h
  · exact Patch_invariant net ua content P hP w false h
  · exact Patch_invariant net ua content P hP w true h
  · exact h
  · exact h

theorem menuStep_invariant {σ : Type} (net : Transport σ) (ua content : String)
    (P : List Exchange → σ → Prop)
    (hP : ∀ (w : World σ) (label : String) (req : Request), Built ua content req →
      P w.log w.peer → P (roundTrip net label w req).1.log (roundTrip net label w req).1.peer)
    (w : World σ) (h : P w.log w.peer) :
    P (menuStep net ua content w).1.log (menuStep net ua content w).1.peer := by
  unfold menuStep
  simp only
  split
  · exact h
  · exact dispatch_invariant net ua content P hP _ _ h

theorem mainLoop_invariant {σ : Type} (net : Transport σ) (ua content : String)
    (P : List Exchange → σ → Prop)
    (hP : ∀ (w : World σ) (label : String) (req : Request), Built ua content req →
      P w.log w.peer → P (roundTrip net label w req).1.log (roundTrip net label w req).1.peer)
    (fuel : Nat) : ∀ w : World σ, P w.log w.peer →
      P (mainLoop net ua content fuel w).1.log (mainLoop net ua content fuel w).1.peer := by
  induction fuel with
  | zero => intro w h; exact h
  | succ k ih =>
    intro w h
    rw [mainLoop_succ]
    split_ifs
    · exact ih _ (menuStep_invariant net ua content P hP w h)
    · exact menuStep_invariant net ua content P hP w h

/-- Every request a run of the loop adds to the log is one the program builds for
the payload. -/
theorem mainLoop_built {σ : Type} (net : Transport σ) (ua content : String) (fuel : Nat)
    (w : World σ) (e : Exchange)
    (h : e ∈ newExchanges w (mainLoop net ua content fuel w).1) : Built ua content e.req := by
  have key := mainLoop_invariant net ua content
    (fun log _ => ∃ l, log = w.log ++ l ∧ ∀ x ∈ l, Built ua content x.req)
    (by
      intro w' label req hb ⟨l, hl, hall⟩
      obtain ⟨r, hr⟩ := roundTrip_log net label w' req
      refine ⟨l ++ [⟨req, r⟩], by rw [hr, hl, List.append_assoc], ?_⟩
      intro x hx
      rcases List.mem_append.1 hx with hx | hx
      · exact hall x hx
      · simp at hx; rw [hx]; exact hb)
    fuel w ⟨[], by simp, by simp⟩
  obtain ⟨l, hl, hall⟩ := key
  rw [newExchanges_of_log _ _ _ hl] at h
  exact hall e h

/-! ## The TUS server -/

theorem uploadOffset_append (log : List Exchange) (e : Exchange) :
    uploadOffset (log ++ [e]) =
      uploadOffset log + (if e.accepted = true then e.req.body.length else 0) := by
  unfold uploadOffset
  by_cases h : e.accepted = true <;> simp [List.filter_append, List.filter_cons, h]

theorem roundTrip_tusd (label : String) (w : World Tusd) (req : Request) :
    (roundTrip tusd label w req).1.log = w.log ++ [⟨req, (w.peer.handle req).reply⟩] ∧
      (roundTrip tusd label w req).1.peer.offset = (w.peer.handle req).offset := by
  unfold roundTrip tusd
  simp only
  cases h : (w.peer.handle req).reply with
  | none => simp [h]
  | some res => simp [h, print_log, print_peer]

theorem handle_built (ua content : String) (s : Tusd) (req : Request)
    (hb : Built ua content req) :
    (s.handle req).offset =
        s.offset + (if (Exchange.mk req (s.handle req).reply).accepted = true then
          req.body.length else 0) ∧
      ((Exchange.mk req (s.handle req).reply).accepted = true →
        s.offset = 0 ∧ req.body = content) := by
  rcases hb with h | ⟨t, h⟩ | ⟨t, icl, h⟩
  · subst h
    simp [Tusd.handle, postRequest_eq, Exchange.accepted]
  · subst h
    simp [Tusd.handle, headRequest_eq, Exchange.accepted]
  · subst h
    have hh : (patchRequest ua t content icl).header "Upload-Offset" = some "0" := by
      rw [patchRequest_eq]; rfl
    have hm : (patchRequest ua t content icl).method = Verb.patch := by rw [patchRequest_eq]
    have hbody : (patchRequest ua t content icl).body = content := by rw [patchRequest_eq]
    by_cases h0 : s.offset = 0
    · have hz : Nat.repr 0 = "0" := by decide
      simp [Tusd.handle, hh, hm, hbody, h0, hz, Exchange.accepted, Response.success]
    · have hne : ¬ ("0" = Nat.repr s.offset) := fun hc => h0 ((repr_eq_zero_iff _).1 hc.symm)
      simp [Tusd.handle, hh, hm, hbody, hne, Exchange.accepted, Response.success]

theorem tusd_invariant (ua content : String) (w : World Tusd) (label : String)
    (req : Request) (hb : Built ua content req)
    (h : uploadOffset w.log = w.peer.offset ∧
      (w.peer.offset = 0 ∨ w.peer.offset = content.length)) :
    uploadOffset (roundTrip tusd label w req).1.log = (roundTrip tusd label w req).1.peer.offset ∧
      ((roundTrip tusd label w req).1.peer.offset = 0 ∨
        (roundTrip tusd label w req).1.peer.offset = content.length) := by
  obtain ⟨hlog, hoff⟩ := roundTrip_tusd label w req
  obtain ⟨h1, h2⟩ := handle_built ua content w.peer req hb
  rw [hlog, hoff, uploadOffset_append, h1, h.1]
  refine ⟨rfl, ?_⟩
  by_cases ha : (Exchange.mk req (w.peer.handle req).reply).accepted = true
  · obtain ⟨h0, hbody⟩ := h2 ha
    right
    simp [ha, h0, hbody]
  · simpa [ha] using h.2

/-- C6: run the menu loop against the TUS server, which starts the upload at
offset 0 and accepts a PATCH exactly when its declared `Upload-Offset` is the
current offset, advancing the offset by the body length. After any number of
iterations, and at the end of the run, the total number of body bytes in
accepted PATCH requests equals the server's offset and is at most
`content.size()`, the `Upload-Length` the program's POST declares. -/
theorem accepted_bytes_equal_server_offset (ua content input : String) (fuel : Nat) :
    (uploadOffset (mainLoop tusd ua content fuel (World.start input Tusd.start)).1.log =
        (mainLoop tusd ua content fuel (World.start input Tusd.start)).1.peer.offset ∧
      (mainLoop tusd ua content fuel (World.start input Tusd.start)).1.peer.offset ≤
        content.length) ∧
      (uploadOffset (runMenu tusd ua content (World.start input Tusd.start)).1.log =
        (runMenu tusd ua content (World.start input Tusd.start)).1.peer.offset ∧
      (runMenu tusd ua content (World.start input Tusd.start)).1.peer.offset ≤
        content.length) ∧
      (postRequest ua content.length).header "Upload-Length" = some (Nat.repr content.length) := by
  have key : ∀ k, uploadOffset (mainLoop tusd ua content k (World.start input Tusd.start)).1.log =
        (mainLoop tusd ua content k (World.start input Tusd.start)).1.peer.offset ∧
      (mainLoop tusd ua content k (World.start input Tusd.start)).1.peer.offset ≤
        content.length := by
    intro k
    have h := mainLoop_invariant tusd ua content
      (fun log peer => uploadOffset log = peer.offset ∧
        (peer.offset = 0 ∨ peer.offset = content.length))
      (fun w label req hb hw => tusd_invariant ua content w label req hb hw)
      k (World.start input Tusd.start) ⟨rfl, Or.inl rfl⟩
    refine ⟨h.1, ?_⟩
    rcases h.2 with h0 | h0 <;> omega
  refine ⟨key fuel, key _, ?_⟩
  rw [postRequest_eq]; rfl

/-! ## Claims about the menu loop -/

theorem Built_patch (ua content : String) (req : Request) (hb : Built ua content req)
    (hm : req.method = Verb.patch) : ∃ t icl, req = patchRequest ua t content icl := by
  rcases hb with h | ⟨t, h⟩ | h
  · rw [h, postRequest_eq] at hm; simp at hm
  · rw [h, headRequest_eq] at hm; simp at hm
  · exact h

theorem Built_post (ua content : String) (req : Request) (hb : Built ua content req)
    (hm : req.method = Verb.post) : req = postRequest ua content.length := by
  rcases hb with h | ⟨t, h⟩ | ⟨t, icl, h⟩
  · exact h
  · rw [h, headRequest_eq] at hm; simp at hm
  · rw [h, patchRequest_eq] at hm; simp at hm

/-- The claim C2 fails: against the TUS server, with a one-byte payload, the
first PATCH is accepted, so `uploadOffset` is 1 when the second PATCH is built,
and the second PATCH still declares `Upload-Offset` 0. -/
theorem second_patch_declares_zero :
    (runMenu tusd "Boost.Beast/266" "a"
        (World.start
          "4 https://tusd.tusdemo.net/files/abc 4 https://tusd.tusdemo.net/files/abc q"
          Tusd.start)).1.log =
      [⟨patchRequest "Boost.Beast/266" "/files/abc" "a" true,
          some ⟨204, [("Upload-Offset", "1")], ""⟩⟩] ++
        ⟨patchRequest "Boost.Beast/266" "/files/abc" "a" true, some ⟨409, [], ""⟩⟩ :: [] ∧
      uploadOffset [⟨patchRequest "Boost.Beast/266" "/files/abc" "a" true,
          some ⟨204, [("Upload-Offset", "1")], ""⟩⟩] = 1 ∧
      (patchRequest "Boost.Beast/266" "/files/abc" "a" true).method = Verb.patch ∧
      (patchRequest "Boost.Beast/266" "/files/abc" "a" true).header "Upload-Offset" =
        some "0" ∧
      (patchRequest "Boost.Beast/266" "/files/abc" "a" true).header "Upload-Offset" ≠
        some (Nat.repr 1) := by
  decide

/-- C2 (amended): the program keeps no upload offset. In every run of the menu
loop, every PATCH request declares `Upload-Offset` 0; this is the session's
`uploadOffset` at the moment the request is built exactly when that
`uploadOffset` is 0, that is, as long as no PATCH of a non-empty payload has
been accepted. -/
theorem patch_declares_offset_zero {σ : Type} (net : Transport σ) (ua content : String)
    (w : World σ) (pre post : List Exchange) (e : Exchange)
    (hlog : newExchanges w (runMenu net ua content w).1 = pre ++ e :: post)
    (hm : e.req.method = Verb.patch) :
    e.req.header "Upload-Offset" = some "0" ∧
      (e.req.header "Upload-Offset" = some (Nat.repr (uploadOffset pre)) ↔
        uploadOffset pre = 0) := by
  have hmem : e ∈ newExchanges w (runMenu net ua content w).1 := by
    rw [hlog]; simp
  have hb := mainLoop_built net ua content _ w e hmem
  obtain ⟨t, icl, he⟩ := Built_patch ua content e.req hb hm
  have hh : e.req.header "Upload-Offset" = some "0" := by
    rw [he, patchRequest_eq]; rfl
  refine ⟨hh, ?_⟩
  rw [hh]
  constructor
  · intro h
    exact (repr_eq_zero_iff _).1 (Option.some.inj h).symm
  · intro h
    rw [h]; rfl

theorem patch_declares_offset_zero_witness :
    (patchRequest "Boost.Beast/266" "/files/abc" "a" true).header "Upload-Offset" = some "0" :=
  (patch_declares_offset_zero tusd "Boost.Beast/266" "a"
    (World.start "4 https://tusd.tusdemo.net/files/abc 4 https://tusd.tusdemo.net/files/abc q"
      Tusd.start)
    [⟨patchRequest "Boost.Beast/266" "/files/abc" "a" true,
      some ⟨204, [("Upload-Offset", "1")], ""⟩⟩]
    []
    ⟨patchRequest "Boost.Beast/266" "/files/abc" "a" true, some ⟨409, [], ""⟩⟩
    (by decide) (by decide)).1

/-- C4: `Post` sends one POST request to the target /files/ whose
`Upload-Length` header is the decimal rendering of its argument; the menu
choice 1 calls `Post` with `content.size()`; and in every run of the loop each
POST sent declares the length of `content` while each PATCH sent has `content`
as its body, so the declared `Upload-Length` is the byte length of the body of
any later PATCH. -/
theorem upload_length_is_payload_length {σ : Type} (net : Transport σ) (ua content : String)
    (w : World σ) (n : Nat) (e : Exchange)
    (h : e ∈ newExchanges w (runMenu net ua content w).1) :
    (∃ r, newExchanges w (Post net ua w n).1 = [⟨postRequest ua n, r⟩]) ∧
      (postRequest ua n).method = Verb.post ∧
      (postRequest ua n).target = "/files/" ∧
      (postRequest ua n).header "Upload-Length" = some (Nat.repr n) ∧
      (dispatch net ua content w '1').1 = (Post net ua w content.length).1 ∧
      (e.req.method = Verb.post →
        e.req.header "Upload-Length" = some (Nat.repr content.length)) ∧
      (e.req.method = Verb.patch →
        e.req.body = content ∧ e.req.body.length = content.length) := by
  have hb := mainLoop_built net ua content _ w e h
  refine ⟨Post_new net ua w n, by rw [postRequest_eq], by rw [postRequest_eq],
    by rw [postRequest_eq]; rfl, by simp [dispatch], ?_, ?_⟩
  · intro hm
    rw [Built_post ua content e.req hb hm, postRequest_eq]; rfl
  · intro hm
    obtain ⟨t, icl, he⟩ := Built_patch ua content e.req hb hm
    rw [he, patchRequest_eq]
    exact ⟨rfl, rfl⟩

theorem upload_length_is_payload_length_witness :
    (⟨postRequest "Boost.Beast/266" 3, some ⟨201,
        [("Location", "https://tusd.tusdemo.net/files/upload")], ""⟩⟩ ∈
      newExchanges (World.start "1 4 https://tusd.tusdemo.net/files/upload q" Tusd.start)
        (runMenu tusd "Boost.Beast/266" "abc"
          (World.start "1 4 https://tusd.tusdemo.net/files/upload q" Tusd.start)).1) ∧
      (postRequest "Boost.Beast/266" 3).header "Upload-Length" = some (Nat.repr "abc".length) :=
  ⟨by decide,
    (upload_length_is_payload_length tusd "Boost.Beast/266" "abc"
      (World.start "1 4 https://tusd.tusdemo.net/files/upload q" Tusd.start) 3
      ⟨postRequest "Boost.Beast/266" 3, some ⟨201,
        [("Location", "https://tusd.tusdemo.net/files/upload")], ""⟩⟩
      (by decide)).2.2.2.2.2.1 (by decide)⟩

end TusSupport
